import Mathlib

/-!
Verification of the LocalKnowledge indexing/retrieval pipeline.

This development shallowly embeds the pure logic of the repository's
Python sources (`indexer.py`, `query.py`, `mcp_server.py`, `zotero_meta.py`)
into Lean: file contents become lists of bytes, PDF documents become lists
of page strings, the JSON index state becomes an association list, and the
external vector-store / embedding capabilities are modelled at their
documented interface boundary (top-k similarity search returning
score-descending nodes).  Theorems at the end settle the frozen claims.
-/

/-! ## Python character/string semantics -/

/-- Characters accepted by Python's `str.isspace` / regex `\s`
(Unicode whitespace). -/
def pySpaceChars : List Char :=
  ['\t', '\n', '\x0b', '\x0c', '\r', '\x1c', '\x1d', '\x1e', '\x1f', ' ',
   '\x85', '\u00A0', '\u1680', '\u2000', '\u2001', '\u2002', '\u2003',
   '\u2004', '\u2005', '\u2006', '\u2007', '\u2008', '\u2009', '\u200A',
   '\u2028', '\u2029', '\u202F', '\u205F', '\u3000']

def isPySpace (c : Char) : Bool := pySpaceChars.contains c

/-- Python regex `\d`.  (Python additionally matches non-ASCII decimal
digits; filenames in scope use ASCII digits, so we model the ASCII range.) -/
def isPyDigit (c : Char) : Bool := c.isDigit

/-- Python `str.strip()` with no arguments: remove leading and trailing
whitespace. -/
def pyStrip (l : List Char) : List Char :=
  ((l.dropWhile isPySpace).reverse.dropWhile isPySpace).reverse

/-- Whether `text.strip()` is falsy in Python: the string is empty or
whitespace-only. -/
def pyIsBlank (s : String) : Bool := s.toList.all isPySpace

/-- Python `str.lower()` restricted to the ASCII case mapping (sufficient
for the `.pdf` extension test it is used for). -/
def pyLower (s : String) : String := String.mk (s.toList.map Char.toLower)

/-- Python `str.endswith(suffix)`, on the character sequence. -/
def pyEndsWith (s suffix : String) : Bool := suffix.toList.isSuffixOf s.toList

/-! ## `indexer.parse_filename` — the regex
`^(.+?)\s*[-–—]\s*(\d{4})\s*[-–—]\s*(.+)$` (`re.match`, leftmost match,
non-greedy authors, greedy title, `$` also matching just before one
trailing newline). -/

/-- Character class `[-–—]`: hyphen, en dash, em dash. -/
def isDashChar (c : Char) : Bool := c == '-' || c == '–' || c == '—'

/-- Match `(.+)$` against `c`: group 3 is all of `c` except an optional
single trailing newline; it must be non-empty and newline-free
(`.` never matches a newline). -/
def titleGroup (c : List Char) : Option (List Char) :=
  let t := if c.getLast? = some '\n' then c.dropLast else c
  if t.isEmpty then none
  else if t.all (fun ch => ch != '\n') then some t else none

/-- Backtracking search for `\s*(.+)$`: try handing `j` characters to the
greedy `\s*` for each `j` in the given list (descending from the maximal
whitespace run, as the regex engine does). -/
def titleSearch (r : List Char) : List Nat → Option (List Char)
  | [] => none
  | j :: js =>
    match titleGroup (r.drop j) with
    | some g => some g
    | none => titleSearch r js

/-- Match `\s*(.+)$` against `r` with the regex engine's greedy-then-backtrack
order on `\s*`. -/
def matchTitle (r : List Char) : Option (List Char) :=
  titleSearch r (List.range ((r.takeWhile isPySpace).length + 1)).reverse

/-- Match `\s*[-–—]\s*(\d{4})\s*[-–—]\s*(.+)$` against `s` (the remainder
after the authors group), returning the year and title groups.  The inner
`\s*` occurrences are deterministic maximal munch: the characters that must
follow them (a dash or a digit) are never whitespace. -/
def matchAfterAuthors (s : List Char) : Option (List Char × List Char) :=
  let s1 := s.dropWhile isPySpace
  match s1 with
  | [] => none
  | d :: r1 =>
    if isDashChar d then
      let s2 := r1.dropWhile isPySpace
      let year := s2.take 4
      if year.length == 4 && year.all isPyDigit then
        let s3 := (s2.drop 4).dropWhile isPySpace
        match s3 with
        | [] => none
        | d2 :: r3 =>
          if isDashChar d2 then (matchTitle r3).map (fun t => (year, t))
          else none
      else none
    else none

/-- One candidate split: the non-greedy `(.+?)` takes the first `k`
characters (which `.` requires to be newline-free), the rest of the
pattern must match the remainder. -/
def stepMatch (name : List Char) (k : Nat) :
    Option (List Char × List Char × List Char) :=
  let a := name.take k
  if a.all (fun ch => ch != '\n') then
    (matchAfterAuthors (name.drop k)).map (fun p => (a, p.1, p.2))
  else none

/-- Try author-group lengths in the given order, first success wins. -/
def pyMatchAux (name : List Char) :
    List Nat → Option (List Char × List Char × List Char)
  | [] => none
  | k :: ks =>
    match stepMatch name k with
    | some r => some r
    | none => pyMatchAux name ks

/-- Full-pattern match of `re.match(r'^(.+?)\s*[-–—]\s*(\d{4})\s*[-–—]\s*(.+)$', name)`:
the lazy `(.+?)` tries lengths 1, 2, … in order; the returned triple is
the three capture groups. -/
def pyMatch (name : List Char) : Option (List Char × List Char × List Char) :=
  pyMatchAux name ((List.range name.length).map (fun i => i + 1))

/-- The stem computation in `parse_filename`:
`filename.rsplit('.', 1)[0] if filename.lower().endswith('.pdf') else filename`.
When the lowercased name ends with `.pdf` the last dot is exactly four
characters from the end, so `rsplit` drops the final four characters. -/
def pdfStem (filename : String) : String :=
  if pyEndsWith (pyLower filename) ".pdf" then
    String.mk (filename.toList.take (filename.toList.length - 4))
  else filename

/-- `indexer.parse_filename`, restricted to its computed fields
`(authors, year, title)` (the remaining `PaperInfo` fields merely copy the
`zotero_key` and `file_path` arguments through). -/
def parse_filename (filename : String) : String × String × String :=
  let name := pdfStem filename
  match pyMatch name.toList with
  | some (a, y, t) => (String.mk (pyStrip a), String.mk y, String.mk (pyStrip t))
  | none => ("Unknown", "", name)

/-! ## `indexer.find_all_pdfs` -/

/-- One entry of the storage root directory, as seen by `Path.iterdir`:
its name, whether it is a directory, and (when a directory) the names of
the files inside it. -/
structure DirEntry where
  name : String
  isDir : Bool
  files : List String
deriving DecidableEq

def isUpperDigit (c : Char) : Bool := c.isUpper || c.isDigit

/-- Exactly eight characters from `[A-Z0-9]`. -/
def keyShape (l : List Char) : Bool := l.length == 8 && l.all isUpperDigit

/-- `re.match(r'^[A-Z0-9]{8}$', name)` succeeds: eight `[A-Z0-9]`
characters followed by the end of the string, where Python's `$` also
matches just before a single trailing newline. -/
def keyMatchRe (name : String) : Bool :=
  let l := name.toList
  keyShape l || (l.getLast? == some '\n' && keyShape l.dropLast)

/-- `indexer.find_all_pdfs`: `none` models a non-existent storage root
(the function prints a message and returns the empty list); otherwise
every directory entry whose name passes the identity-key regex
contributes its `*.pdf` files, as `(zotero_key, pdf filename)` pairs
(the source wraps each pair through `parse_filename` into a `PaperInfo`). -/
def find_all_pdfs (root : Option (List DirEntry)) : List (String × String) :=
  match root with
  | none => []
  | some entries =>
    (((entries.filter (fun e => e.isDir && keyMatchRe e.name)).map
      (fun e => (e.files.filter (fun f => pyEndsWith f ".pdf")).map
        (fun f => (e.name, f)))).flatten)

/-! ## `indexer.extract_pdf_by_pages` -/

/-- The fields of a `PaperInfo` that `extract_pdf_by_pages` copies into
each page's metadata (`source` is the file's name, `file_path` its full
path as a string). -/
structure PaperLite where
  title : String
  authors : String
  year : String
  zotero_key : String
  source : String
  file_path : String
deriving DecidableEq

/-- The per-page metadata dict built in `extract_pdf_by_pages`. -/
structure PageMeta where
  title : String
  authors : String
  year : String
  zotero_key : String
  source : String
  file_path : String
  page : Nat
  total_pages : Nat
deriving DecidableEq

def mkPageMeta (p : PaperLite) (pageIdx total : Nat) : PageMeta :=
  ⟨p.title, p.authors, p.year, p.zotero_key, p.source, p.file_path,
   pageIdx + 1, total⟩

/-- The `for page_num, page in enumerate(doc)` loop: `i` is the 0-based
index of the first page of the remaining list. -/
def extractAux (p : PaperLite) (total : Nat) :
    Nat → List String → List (String × PageMeta)
  | _, [] => []
  | i, text :: rest =>
    if pyIsBlank text then extractAux p total (i + 1) rest
    else (text, mkPageMeta p i total) :: extractAux p total (i + 1) rest

/-- `indexer.extract_pdf_by_pages`, with the opened PDF modelled as the
list of its pages' extracted texts (`page.get_text()` per page, in page
order; `len(doc)` is the total page count). -/
def extract_pdf_by_pages (p : PaperLite) (pdfPages : List String) :
    List (String × PageMeta) :=
  extractAux p pdfPages.length 0 pdfPages

/-! ## Index state and the `index_papers` run
(`load_index_state` / skip test / per-document try-except / counting). -/

/-- One value of the `indexed_files` JSON object.  `hashF` is the value
`.get("hash")` sees (`none` when the loaded record lacks the field);
`pages` is the cached chunk count.  The source also caches
`indexed_at`/`title`/`authors`/`year`, which play no role in any control
flow and are omitted. -/
structure IndexedRec where
  hashF : Option String
  pages : Nat
deriving DecidableEq

/-- The `indexed_files` dict, as an insertion-ordered association list. -/
abbrev IndexState := List (String × IndexedRec)

def lookupState : IndexState → String → Option IndexedRec
  | [], _ => none
  | (k, r) :: t, k0 => if k == k0 then some r else lookupState t k0

/-- Python dict assignment `state["indexed_files"][key] = rec`: overwrite
in place if present, append otherwise. -/
def insertState : IndexState → String → IndexedRec → IndexState
  | [], k0, r0 => [(k0, r0)]
  | (k, r) :: t, k0, r0 =>
    if k == k0 then (k0, r0) :: t else (k, r) :: insertState t k0 r0

/-- One candidate document inside an `index_papers` run: its identity key,
the fingerprint `get_file_hash` computes for its bytes, and the outcome of
`extract_pdf_by_pages` on it (`none`: the call raised and the `except`
branch ran; `some n`: it returned `n` page chunks).  Because no file
changes during or between the runs we consider, both are fixed attributes
of the document. -/
structure PaperF where
  key : String
  hash : String
  extract : Option Nat
deriving DecidableEq

/-- The inner test `state["indexed_files"][key].get("hash") == file_hash`. -/
def recHashMatches (o : Option IndexedRec) (h : String) : Bool :=
  match o with
  | some r => r.hashF == some h
  | none => false

/-- The skip condition in the `index_papers` loop:
`not force and paper.zotero_key in state["indexed_files"]` and the stored
hash equals the current hash. -/
def shouldSkip (force : Bool) (st : IndexState) (p : PaperF) : Bool :=
  !force && recHashMatches (lookupState st p.key) p.hash

/-- Claim-side restatement of the skip rule, following the spec's words:
a document is skipped iff it has a prior record, that record's stored
fingerprint equals the current fingerprint, and force-refresh was not
requested. -/
def skipSpecPred (force : Bool) (st : IndexState) (p : PaperF) : Prop :=
  force = false ∧ ∃ r, lookupState st p.key = some r ∧ r.hashF = some p.hash

/-- The per-document loop of `index_papers`: skip, or attempt extraction;
success records the new fingerprint and increments the newly-indexed
count, failure is caught and leaves both state and count unchanged. -/
def runSteps (force : Bool) :
    List PaperF → IndexState → Nat → IndexState × Nat
  | [], st, c => (st, c)
  | p :: ps, st, c =>
    if shouldSkip force st p then runSteps force ps st c
    else
      match p.extract with
      | some n => runSteps force ps (insertState st p.key ⟨some p.hash, n⟩) (c + 1)
      | none => runSteps force ps st c

/-- `indexer.index_papers` as a state transformer on the persisted index
state, returning the final persisted state and the newly-indexed count.
When no PDFs are found, the function returns 0 before loading or saving
any state, so the persisted state is untouched; otherwise the loaded
state (empty when `force`) is threaded through the loop and saved at the
end. -/
def index_papers_run (papers : List PaperF) (prior : IndexState)
    (force : Bool) : IndexState × Nat :=
  if papers.isEmpty then (prior, 0)
  else runSteps force papers (if force then [] else prior) 0

/-! ## `zotero_meta.ZoteroDatabase._load_creators` -/

/-- One row of the creators query; `firstName`/`lastName` are `none` when
the column is SQL NULL. -/
structure CreatorRow where
  orderIndex : Nat
  firstName : Option String
  lastName : Option String
deriving DecidableEq

/-- The loop body of `_load_creators`: `first = row['firstName'] or ""`,
`last = row['lastName'] or ""`, join with a space when both are present,
otherwise `last or first`; an empty name is not appended. -/
def creatorName (row : CreatorRow) : Option String :=
  let first := row.firstName.getD ""
  let last := row.lastName.getD ""
  let name :=
    if first != "" && last != "" then first ++ " " ++ last
    else if last != "" then last else first
  if name != "" then some name else none

def creatorLE (a b : CreatorRow) : Prop := a.orderIndex ≤ b.orderIndex

instance : DecidableRel creatorLE :=
  fun a b => inferInstanceAs (Decidable (a.orderIndex ≤ b.orderIndex))

instance : IsTotal CreatorRow creatorLE :=
  ⟨fun a b => Nat.le_total a.orderIndex b.orderIndex⟩

instance : IsTrans CreatorRow creatorLE :=
  ⟨fun _ _ _ h1 h2 => Nat.le_trans h1 h2⟩

/-- `_load_creators`: the SQL `ORDER BY ic.orderIndex` delivers the rows
sorted ascending by order index; the loop then appends the non-empty
names in that order. -/
def load_creators (rows : List CreatorRow) : List String :=
  (List.insertionSort creatorLE rows).filterMap creatorName

/-! ## Retrieval (`query.ZoteroRAG`): the vector-store capability is
modelled at its interface boundary — the store holds scored chunks and a
top-k similarity search returns the k best in similarity-descending
order; `SimilarityPostprocessor` drops nodes scoring below the cutoff. -/

/-- A scored chunk as returned by the vector store for a query: the
chunk's metadata and text, and its similarity score (the library permits
a missing score). -/
structure RNode where
  meta : PageMeta
  text : String
  score : Option ℚ
deriving DecidableEq

/-- The `Citation` dataclass of `query.py`. -/
structure Citation where
  source : String
  page : Nat
  title : String
  authors : String
  year : String
  text_snippet : String
  score : ℚ
deriving DecidableEq

def nodeScoreKey (n : RNode) : ℚ := n.score.getD 0

/-- Similarity-descending order on scored nodes. -/
def scoreGE (a b : RNode) : Prop := nodeScoreKey b ≤ nodeScoreKey a

instance : DecidableRel scoreGE :=
  fun a b => inferInstanceAs (Decidable (nodeScoreKey b ≤ nodeScoreKey a))

instance : IsTotal RNode scoreGE :=
  ⟨fun a b => le_total (nodeScoreKey b) (nodeScoreKey a)⟩

instance : IsTrans RNode scoreGE :=
  ⟨fun _ _ _ h1 h2 => le_trans h2 h1⟩

/-- `VectorIndexRetriever(similarity_top_k=topK).retrieve(q)`: the
external similarity search, modelled from its contract — the `topK`
best-scoring chunks of the store, in similarity-descending order. -/
def vretrieve (store : List RNode) (topK : Nat) : List RNode :=
  (List.insertionSort scoreGE store).take topK

/-- `SimilarityPostprocessor(similarity_cutoff=cutoff)`: keep the nodes
whose score is present and at least the cutoff, preserving order. -/
def simPostprocess (cutoff : ℚ) (nodes : List RNode) : List RNode :=
  nodes.filter (fun n =>
    match n.score with
    | some s => decide (cutoff ≤ s)
    | none => false)

/-- The `Citation(...)` construction shared by `query` and
`retrieve_only`: metadata fields are copied (the `.get` defaults are
unreachable because every stored chunk carries full metadata), and
`node.score if node.score else 0.0` is `score.getD 0`. -/
def toCitation (n : RNode) : Citation :=
  { source := n.meta.source, page := n.meta.page, title := n.meta.title,
    authors := n.meta.authors, year := n.meta.year, text_snippet := n.text,
    score := n.score.getD 0 }

/-- `ZoteroRAG.retrieve_only`: builds a fresh `VectorIndexRetriever` with
`similarity_top_k=top_k`, retrieves, and converts every node to a
`Citation` — no postprocessor is attached. -/
def retrieve_only (store : List RNode) (_question : String) (topK : Nat) :
    List Citation :=
  (vretrieve store topK).map toCitation

/-- The source nodes the query engine built by `_create_query_engine`
attaches to a response: retriever output passed through the
`SimilarityPostprocessor`. -/
def query_source_nodes (store : List RNode) (_question : String) (topK : Nat)
    (cutoff : ℚ) : List RNode :=
  simPostprocess cutoff (vretrieve store topK)

/-- The citations `ZoteroRAG.query` returns: one per surviving source
node, in order. -/
def query_citations (store : List RNode) (question : String) (topK : Nat)
    (cutoff : ℚ) : List Citation :=
  (query_source_nodes store question topK cutoff).map toCitation

/-! ## The four MCP tools (`mcp_server.py`).  Each tool body runs inside
`try: ... except Exception as e: return {status: error}`; the calls that
can raise (config/index loading, retrieval, state-file reading) enter the
model as `Except` values, and a missing state file as `none`. -/

/-- The status envelope returned by every tool: the `status` value of
the JSON object, as the string the source writes, plus the
human-readable message.  The other payload fields vary per tool and per
branch and are irrelevant to the envelope discipline, which is what the
claims constrain. -/
structure MCPEnvelope where
  status : String
  message : String
deriving DecidableEq

/-- `mcp_server.zotero_search`. -/
def zotero_search (loadIdx : Except String Unit)
    (retrieved : Except String (List RNode)) : MCPEnvelope :=
  match loadIdx with
  | .error e => ⟨"error", e⟩
  | .ok _ =>
    match retrieved with
    | .error e => ⟨"error", e⟩
    | .ok nodes =>
      if nodes.isEmpty then ⟨"no_results", "未找到相关文献"⟩
      else ⟨"success", ""⟩

/-- `mcp_server.zotero_list_papers`: a missing state file yields a
status=error envelope; a loaded state always yields success (the year
filter and limit shape only the payload). -/
def zotero_list_papers (cfg : Except String Unit)
    (stateFile : Option (Except String IndexState)) : MCPEnvelope :=
  match cfg with
  | .error e => ⟨"error", e⟩
  | .ok _ =>
    match stateFile with
    | none => ⟨"error", "索引状态文件不存在，请先运行 indexer.py"⟩
    | some (.error e) => ⟨"error", e⟩
    | some (.ok _) => ⟨"success", ""⟩

/-- Case-insensitive substring test: Python
`keyword.lower() in title.lower()`. -/
def lowerContains (hay needle : String) : Bool :=
  let h := (pyLower hay).toList
  let n := (pyLower needle).toList
  (List.range (h.length + 1)).any (fun i => n.isPrefixOf (h.drop i))

/-- `mcp_server.zotero_get_paper_content`: retrieved nodes are grouped by
title after dropping those whose title does not contain the keyword; an
empty group dict yields not_found. -/
def zotero_get_paper_content (loadIdx : Except String Unit)
    (retrieved : Except String (List RNode)) (titleKeyword : String) :
    MCPEnvelope :=
  match loadIdx with
  | .error e => ⟨"error", e⟩
  | .ok _ =>
    match retrieved with
    | .error e => ⟨"error", e⟩
    | .ok nodes =>
      let matching := nodes.filter (fun n => lowerContains n.meta.title titleKeyword)
      if matching.isEmpty then ⟨"not_found", "未找到匹配标题的论文"⟩
      else ⟨"success", ""⟩

/-- `mcp_server.zotero_stats`. -/
def zotero_stats (cfg : Except String Unit)
    (stateFile : Option (Except String IndexState)) : MCPEnvelope :=
  match cfg with
  | .error e => ⟨"error", e⟩
  | .ok _ =>
    match stateFile with
    | none => ⟨"error", "索引未建立"⟩
    | some (.error e) => ⟨"error", e⟩
    | some (.ok _) => ⟨"success", ""⟩

/-! ## `indexer.get_file_hash` — MD5 (RFC 1321) of the file's bytes.
Reading the file in 4096-byte chunks and feeding them to a streaming
hasher digests exactly the concatenated bytes, so the model hashes the
whole content at once.  Bytes are naturals below 256; 32-bit words are
naturals reduced mod 2^32. -/

def m32 (n : Nat) : Nat := n % 4294967296

def madd (a b : Nat) : Nat := m32 (a + b)

/-- Left-rotation of a 32-bit word: the low and high parts occupy
disjoint bit ranges, so the sum is their bitwise or. -/
def rotl32 (x s : Nat) : Nat := m32 (x <<< s) + x >>> (32 - s)

/-- Bitwise complement within 32 bits (for `x < 2^32`). -/
def bnot32 (x : Nat) : Nat := 4294967295 - x

def md5F (b c d : Nat) : Nat := (b &&& c) ||| (bnot32 b &&& d)

def md5G (b c d : Nat) : Nat := (d &&& b) ||| (bnot32 d &&& c)

def md5H (b c d : Nat) : Nat := b ^^^ c ^^^ d

def md5I (b c d : Nat) : Nat := c ^^^ (b ||| bnot32 d)

/-- The 64 sine-derived constants `T[i] = floor(abs(sin(i+1)) * 2^32)`. -/
def md5K : List Nat := [
  0xd76aa478, 0xe8c7b756, 0x242070db, 0xc1bdceee, 0xf57c0faf, 0x4787c62a, 0xa8304613, 0xfd469501,
  0x698098d8, 0x8b44f7af, 0xffff5bb1, 0x895cd7be, 0x6b901122, 0xfd987193, 0xa679438e, 0x49b40821,
  0xf61e2562, 0xc040b340, 0x265e5a51, 0xe9b6c7aa, 0xd62f105d, 0x02441453, 0xd8a1e681, 0xe7d3fbc8,
  0x21e1cde6, 0xc33707d6, 0xf4d50d87, 0x455a14ed, 0xa9e3e905, 0xfcefa3f8, 0x676f02d9, 0x8d2a4c8a,
  0xfffa3942, 0x8771f681, 0x6d9d6122, 0xfde5380c, 0xa4beea44, 0x4bdecfa9, 0xf6bb4b60, 0xbebfbc70,
  0x289b7ec6, 0xeaa127fa, 0xd4ef3085, 0x04881d05, 0xd9d4d039, 0xe6db99e5, 0x1fa27cf8, 0xc4ac5665,
  0xf4292244, 0x432aff97, 0xab9423a7, 0xfc93a039, 0x655b59c3, 0x8f0ccc92, 0xffeff47d, 0x85845dd1,
  0x6fa87e4f, 0xfe2ce6e0, 0xa3014314, 0x4e0811a1, 0xf7537e82, 0xbd3af235, 0x2ad7d2bb, 0xeb86d391
]

/-- Per-round left-rotation amounts. -/
def md5S : List Nat := [
  7, 12, 17, 22, 7, 12, 17, 22, 7, 12, 17, 22, 7, 12, 17, 22,
  5, 9, 14, 20, 5, 9, 14, 20, 5, 9, 14, 20, 5, 9, 14, 20,
  4, 11, 16, 23, 4, 11, 16, 23, 4, 11, 16, 23, 4, 11, 16, 23,
  6, 10, 15, 21, 6, 10, 15, 21, 6, 10, 15, 21, 6, 10, 15, 21
]

/-- Word `j` of a 64-byte block, little-endian. -/
def blockWord (blk : List Nat) (j : Nat) : Nat :=
  blk.getD (4 * j) 0 + 256 * blk.getD (4 * j + 1) 0 +
  65536 * blk.getD (4 * j + 2) 0 + 16777216 * blk.getD (4 * j + 3) 0

/-- One of the 64 steps of the compression function. -/
def md5Step (blk : List Nat) (st : Nat × Nat × Nat × Nat) (i : Nat) :
    Nat × Nat × Nat × Nat :=
  let a := st.1
  let b := st.2.1
  let c := st.2.2.1
  let d := st.2.2.2
  let f :=
    if i < 16 then md5F b c d
    else if i < 32 then md5G b c d
    else if i < 48 then md5H b c d
    else md5I b c d
  let g :=
    if i < 16 then i
    else if i < 32 then (5 * i + 1) % 16
    else if i < 48 then (3 * i + 5) % 16
    else (7 * i) % 16
  let tmp := madd (madd (madd a f) (md5K.getD i 0)) (blockWord blk g)
  (d, madd b (rotl32 tmp (md5S.getD i 0)), b, c)

/-- Process one 64-byte block: 64 steps, then add the incoming state. -/
def md5Block (st : Nat × Nat × Nat × Nat) (blk : List Nat) :
    Nat × Nat × Nat × Nat :=
  let r := (List.range 64).foldl (md5Step blk) st
  (madd st.1 r.1, madd st.2.1 r.2.1, madd st.2.2.1 r.2.2.1,
   madd st.2.2.2 r.2.2.2)

def md5Init : Nat × Nat × Nat × Nat :=
  (0x67452301, 0xefcdab89, 0x98badcfe, 0x10325476)

/-- MD5 padding: a 0x80 byte, zeros to 56 mod 64, then the bit length as
eight little-endian bytes. -/
def md5Pad (msg : List Nat) : List Nat :=
  let zeros := (120 - (msg.length + 1) % 64) % 64
  let bits := 8 * msg.length
  msg ++ [0x80] ++ List.replicate zeros 0 ++
    (List.range 8).map (fun i => (bits >>> (8 * i)) % 256)

/-- Split a padded message into its 64-byte blocks. -/
def md5Blocks (padded : List Nat) : List (List Nat) :=
  (List.range (padded.length / 64)).map
    (fun i => (padded.drop (64 * i)).take 64)

/-- A 32-bit word as four little-endian bytes. -/
def wordLEBytes (x : Nat) : List Nat :=
  [x % 256, x / 256 % 256, x / 65536 % 256, x / 16777216 % 256]

/-- The 16 digest bytes of a byte list. -/
def md5Bytes (msg : List Nat) : List Nat :=
  let st := (md5Blocks (md5Pad msg)).foldl md5Block md5Init
  wordLEBytes st.1 ++ wordLEBytes st.2.1 ++ wordLEBytes st.2.2.1 ++
    wordLEBytes st.2.2.2

def hexNibble (n : Nat) : Char :=
  if n < 10 then Char.ofNat (48 + n) else Char.ofNat (87 + n)

def byteHex (b : Nat) : List Char := [hexNibble (b / 16), hexNibble (b % 16)]

/-- Lowercase hex digest, as `hexdigest()` returns it. -/
def md5Hex (msg : List Nat) : String :=
  String.mk ((md5Bytes msg).map byteHex).flatten

/-- `indexer.get_file_hash`: the lowercase-hex MD5 digest of the full
file content (streamed 4096 bytes at a time in the source, which digests
the same byte sequence). -/
def get_file_hash (content : List Nat) : String := md5Hex content

/-! ## Concrete data for the fingerprint analysis: the classic pair of
distinct 128-byte messages with equal MD5 digests (both digest to
`79054025255fb1a26e4bc422aef54eb4`; they differ in bytes 19, 45, 59, 83,
109 and 123). -/

def collisionMsg1 : List Nat := [
  0xd1, 0x31, 0xdd, 0x02, 0xc5, 0xe6, 0xee, 0xc4, 0x69, 0x3d, 0x9a, 0x06, 0x98, 0xaf, 0xf9, 0x5c,
  0x2f, 0xca, 0xb5, 0x87, 0x12, 0x46, 0x7e, 0xab, 0x40, 0x04, 0x58, 0x3e, 0xb8, 0xfb, 0x7f, 0x89,
  0x55, 0xad, 0x34, 0x06, 0x09, 0xf4, 0xb3, 0x02, 0x83, 0xe4, 0x88, 0x83, 0x25, 0x71, 0x41, 0x5a,
  0x08, 0x51, 0x25, 0xe8, 0xf7, 0xcd, 0xc9, 0x9f, 0xd9, 0x1d, 0xbd, 0xf2, 0x80, 0x37, 0x3c, 0x5b,
  0xd8, 0x82, 0x3e, 0x31, 0x56, 0x34, 0x8f, 0x5b, 0xae, 0x6d, 0xac, 0xd4, 0x36, 0xc9, 0x19, 0xc6,
  0xdd, 0x53, 0xe2, 0xb4, 0x87, 0xda, 0x03, 0xfd, 0x02, 0x39, 0x63, 0x06, 0xd2, 0x48, 0xcd, 0xa0,
  0xe9, 0x9f, 0x33, 0x42, 0x0f, 0x57, 0x7e, 0xe8, 0xce, 0x54, 0xb6, 0x70, 0x80, 0xa8, 0x0d, 0x1e,
  0xc6, 0x98, 0x21, 0xbc, 0xb6, 0xa8, 0x83, 0x93, 0x96, 0xf9, 0x65, 0x2b, 0x6f, 0xf7, 0x2a, 0x70
]

def collisionMsg2 : List Nat := [
  0xd1, 0x31, 0xdd, 0x02, 0xc5, 0xe6, 0xee, 0xc4, 0x69, 0x3d, 0x9a, 0x06, 0x98, 0xaf, 0xf9, 0x5c,
  0x2f, 0xca, 0xb5, 0x07, 0x12, 0x46, 0x7e, 0xab, 0x40, 0x04, 0x58, 0x3e, 0xb8, 0xfb, 0x7f, 0x89,
  0x55, 0xad, 0x34, 0x06, 0x09, 0xf4, 0xb3, 0x02, 0x83, 0xe4, 0x88, 0x83, 0x25, 0xf1, 0x41, 0x5a,
  0x08, 0x51, 0x25, 0xe8, 0xf7, 0xcd, 0xc9, 0x9f, 0xd9, 0x1d, 0xbd, 0x72, 0x80, 0x37, 0x3c, 0x5b,
  0xd8, 0x82, 0x3e, 0x31, 0x56, 0x34, 0x8f, 0x5b, 0xae, 0x6d, 0xac, 0xd4, 0x36, 0xc9, 0x19, 0xc6,
  0xdd, 0x53, 0xe2, 0x34, 0x87, 0xda, 0x03, 0xfd, 0x02, 0x39, 0x63, 0x06, 0xd2, 0x48, 0xcd, 0xa0,
  0xe9, 0x9f, 0x33, 0x42, 0x0f, 0x57, 0x7e, 0xe8, 0xce, 0x54, 0xb6, 0x70, 0x80, 0x28, 0x0d, 0x1e,
  0xc6, 0x98, 0x21, 0xbc, 0xb6, 0xa8, 0x83, 0x93, 0x96, 0xf9, 0x65, 0xab, 0x6f, 0xf7, 0x2a, 0x70
]

/-! ## Claim theorems -/

set_option maxRecDepth 400000

/-- C8 counterexample: two file contents that differ in a byte (byte 19
is `0xb5` vs `0x05` — in fact six bytes differ) but receive the same
fingerprint from `get_file_hash`, so the claim "changing at least one
byte of the content changes the fingerprint" is false as stated. -/
theorem get_file_hash_collision_cex :
    get_file_hash collisionMsg1 = get_file_hash collisionMsg2 ∧
    collisionMsg1 ≠ collisionMsg2 ∧
    collisionMsg1.length = collisionMsg2.length := by
  refine ⟨by decide, by decide, by decide⟩

/-- C8 (amended): the fingerprint is the MD5 digest of the full file
content, computed only from the bytes; a content change re-indexes the
document on the next run whenever the two contents' digests differ —
which is every change except an MD5 collision (such collisions exist,
see the counterexample).  Whenever the stored fingerprint differs from
the current one the skip test fails and the document proceeds to
extraction. -/
theorem get_file_hash_sensitivity (c1 c2 : List Nat) (st : IndexState)
    (k : String) (ex : Option Nat) (r : IndexedRec)
    (hdiff : get_file_hash c1 ≠ get_file_hash c2)
    (hrec : lookupState st k = some r)
    (hstored : r.hashF = some (get_file_hash c1)) :
    shouldSkip false st ⟨k, get_file_hash c2, ex⟩ = false := by
  simp only [shouldSkip, Bool.not_false, Bool.true_and, hrec, recHashMatches,
    hstored, beq_eq_false_iff_ne, ne_eq, Option.some.injEq]
  exact hdiff

/-- C8 witness: a one-byte file re-indexed after its byte changes. -/
theorem get_file_hash_sensitivity_witness :
    shouldSkip false [("DDDD4444", ⟨some (get_file_hash [0]), 1⟩)]
      ⟨"DDDD4444", get_file_hash [1], some 1⟩ = false :=
  get_file_hash_sensitivity [0] [1] _ "DDDD4444" (some 1) _ (by decide)
    rfl rfl

/-- C1: a document is skipped iff force-refresh was not requested, a
prior record for its identity key exists, and that record's stored
fingerprint equals the current fingerprint (`skipSpecPred` restates the
spec's words); in every other case the per-document loop proceeds to the
extraction attempt. -/
theorem shouldSkip_iff_spec (force : Bool) (st : IndexState) (p : PaperF) :
    (shouldSkip force st p = true ↔ skipSpecPred force st p) ∧
    (∀ ps c, shouldSkip force st p = false →
      runSteps force (p :: ps) st c =
        match p.extract with
        | some n =>
            runSteps force ps (insertState st p.key ⟨some p.hash, n⟩) (c + 1)
        | none => runSteps force ps st c) := by
  constructor
  · cases h : lookupState st p.key <;> cases force <;>
      simp [shouldSkip, recHashMatches, skipSpecPred, h]
  · intro ps c hns
    simp [runSteps, hns]

/-- C1 witness: with an empty prior state nothing is skipped and the
first document goes to extraction, recording its fingerprint. -/
theorem shouldSkip_iff_spec_witness :
    shouldSkip false [] ⟨"AAAA1111", "h", some 2⟩ = false ∧
    runSteps false [⟨"AAAA1111", "h", some 2⟩] [] 0 =
      runSteps false [] (insertState [] "AAAA1111" ⟨some "h", 2⟩) 1 := by
  refine ⟨by decide, ?_⟩
  exact (shouldSkip_iff_spec false [] ⟨"AAAA1111", "h", some 2⟩).2 [] 0
    (by decide)

/-- C9: each of the four automation-agent operations returns an envelope
whose status is one of success / error / no_results / not_found, for
every combination of outcomes of the raising internals (the `Except`
and `Option` inputs cover every exception path); totality of these
functions is the no-propagation guarantee of the `try`/`except` walls. -/
theorem mcp_envelope_status (loadIdx : Except String Unit)
    (retrieved : Except String (List RNode)) (kw : String)
    (cfg : Except String Unit)
    (stateFile : Option (Except String IndexState)) :
    (zotero_search loadIdx retrieved).status ∈
      ["success", "error", "no_results", "not_found"] ∧
    (zotero_list_papers cfg stateFile).status ∈
      ["success", "error", "no_results", "not_found"] ∧
    (zotero_get_paper_content loadIdx retrieved kw).status ∈
      ["success", "error", "no_results", "not_found"] ∧
    (zotero_stats cfg stateFile).status ∈
      ["success", "error", "no_results", "not_found"] := by
  refine ⟨?_, ?_, ?_, ?_⟩
  · rcases loadIdx with e | u
    · simp [zotero_search]
    · rcases retrieved with e2 | nodes
      · simp [zotero_search]
      · by_cases h : nodes.isEmpty <;> simp [zotero_search, h]
  · rcases cfg with e | u
    · simp [zotero_list_papers]
    · rcases stateFile with _ | se
      · simp [zotero_list_papers]
      · rcases se with e2 | stv <;> simp [zotero_list_papers]
  · rcases loadIdx with e | u
    · simp [zotero_get_paper_content]
    · rcases retrieved with e2 | nodes
      · simp [zotero_get_paper_content]
      · by_cases h :
          (nodes.filter
            (fun n => lowerContains n.meta.title kw)).isEmpty <;>
          simp [zotero_get_paper_content, h]
  · rcases cfg with e | u
    · simp [zotero_stats]
    · rcases stateFile with _ | se
      · simp [zotero_stats]
      · rcases se with e2 | stv <;> simp [zotero_stats]

/-- C6 counterexample: a directory whose name is NOT exactly eight
uppercase-alnum characters (it is nine characters, ending in a newline)
still contributes candidates, because Python's `$` also matches just
before a trailing newline; the claim's "all other directory names are
silently excluded" is therefore false as stated. -/
theorem find_all_pdfs_newline_cex :
    find_all_pdfs (some [⟨"ABCDEFGH\n", true, ["paper.pdf"]⟩]) =
      [("ABCDEFGH\n", "paper.pdf")] ∧
    keyShape "ABCDEFGH\n".toList = false := by
  exact ⟨by decide, by decide⟩

/-- C6 (amended): candidates come exactly from the `*.pdf` files of the
immediate subdirectories whose name matches `^[A-Z0-9]{8}$` — i.e. is
exactly eight uppercase letters/digits, or such a key followed by one
trailing newline (a Python `$` artifact); a missing root yields the
empty list rather than an error. -/
theorem find_all_pdfs_spec (entries : List DirEntry) (k f name : String) :
    ((k, f) ∈ find_all_pdfs (some entries) ↔
      ∃ e ∈ entries, e.isDir = true ∧ keyMatchRe e.name = true ∧
        e.name = k ∧ f ∈ e.files ∧ pyEndsWith f ".pdf" = true) ∧
    (keyMatchRe name = true ↔
      (keyShape name.toList = true ∨
        (name.toList.getLast? = some '\n' ∧
          keyShape name.toList.dropLast = true))) ∧
    find_all_pdfs none = [] := by
  refine ⟨?_, ?_, rfl⟩
  · simp only [find_all_pdfs, List.mem_flatten, List.mem_map,
      List.mem_filter, Bool.and_eq_true, Prod.mk.injEq]
    constructor
    · rintro ⟨l, ⟨e, ⟨he, hdir, hkey⟩, rfl⟩, hm⟩
      rw [List.mem_map] at hm
      obtain ⟨f0, hf0, hff⟩ := hm
      rw [List.mem_filter] at hf0
      injection hff with h1 h2
      exact ⟨e, he, hdir, hkey, h1, h2 ▸ hf0.1, h2 ▸ hf0.2⟩
    · rintro ⟨e, he, hdir, hkey, rfl, hf, hpdf⟩
      refine ⟨_, ⟨e, ⟨he, hdir, hkey⟩, rfl⟩, ?_⟩
      rw [List.mem_map]
      exact ⟨f, List.mem_filter.mpr ⟨hf, hpdf⟩, rfl⟩
  · simp [keyMatchRe, Bool.or_eq_true, Bool.and_eq_true, beq_iff_eq]

/-- C6 witness: a well-formed key directory's PDF is a candidate. -/
theorem find_all_pdfs_spec_witness :
    ("3GPQD2K2", "paper.pdf") ∈
      find_all_pdfs (some
        [⟨"3GPQD2K2", true, ["paper.pdf", "notes.txt"]⟩,
         ⟨"notes", true, ["readme.pdf"]⟩]) :=
  (find_all_pdfs_spec _ "3GPQD2K2" "paper.pdf" "x").1.mpr (by decide)

/-- Metadata for the C3 example chunks. -/
def cexMeta (t : String) : PageMeta :=
  ⟨t, "A", "2020", "KEYC1111", "s.pdf", "/lib/s.pdf", 1, 3⟩

/-- The spec's example result set: three chunks with similarity scores
0.9, 0.75 and 0.4. -/
def cexStore : List RNode :=
  [⟨cexMeta "t1", "x1", some (mkRat 9 10)⟩,
   ⟨cexMeta "t2", "x2", some (mkRat 3 4)⟩,
   ⟨cexMeta "t3", "x3", some (mkRat 2 5)⟩]

/-- C3 counterexample: on the spec's own example (scores 0.9, 0.75, 0.4
and cutoff 0.5), `retrieve_only` returns all three citations — the
0.4-scored chunk below the cutoff included — because it builds a bare
retriever with no similarity postprocessor; the claim that the Citations
path drops every chunk below the threshold is false as stated. -/
theorem retrieve_only_cutoff_cex :
    ((retrieve_only cexStore "q" 5).map (fun c => c.score) =
      [mkRat 9 10, mkRat 3 4, mkRat 2 5]) ∧
    ¬ (∀ c ∈ retrieve_only cexStore "q" 5, mkRat 1 2 ≤ c.score) := by
  exact ⟨by decide, by decide⟩

/-- C3 (amended): the similarity cutoff is applied only on the
answer-synthesis path — the query engine of `_create_query_engine`
post-filters the top-K similarity search, keeping, in
similarity-descending order, exactly the retrieved chunks scoring at
least the threshold; `retrieve_only` issues the same top-K search and
preserves the descending order, but applies no cutoff and returns all
min(topK, store size) citations. -/
theorem retrieval_cutoff_spec (store : List RNode) (q : String)
    (topK : Nat) (cutoff : ℚ) :
    (query_source_nodes store q topK cutoff =
      (vretrieve store topK).filter (fun n =>
        match n.score with
        | some s => decide (cutoff ≤ s)
        | none => false)) ∧
    (∀ c ∈ query_citations store q topK cutoff, cutoff ≤ c.score) ∧
    List.Sorted scoreGE (query_source_nodes store q topK cutoff) ∧
    List.Pairwise (fun a b : Citation => b.score ≤ a.score)
      (retrieve_only store q topK) ∧
    (retrieve_only store q topK).length = min topK store.length := by
  have hsorted : List.Sorted scoreGE (vretrieve store topK) :=
    List.Pairwise.sublist (List.take_sublist _ _)
      (List.sorted_insertionSort scoreGE store)
  refine ⟨rfl, ?_, ?_, ?_, ?_⟩
  · intro c hc
    rw [query_citations, List.mem_map] at hc
    obtain ⟨n, hn, rfl⟩ := hc
    rw [query_source_nodes, simPostprocess, List.mem_filter] at hn
    have h2 := hn.2
    cases hs : n.score with
    | none => rw [hs] at h2; exact absurd h2 (by simp)
    | some s =>
      rw [hs] at h2
      simp only [decide_eq_true_eq] at h2
      simpa [toCitation, hs] using h2
  · exact List.Pairwise.filter _ hsorted
  · exact List.Pairwise.map toCitation (fun a b hab => hab) hsorted
  · rw [retrieve_only, List.length_map, vretrieve, List.length_take,
      List.length_insertionSort]

/-- C3 witness: on the example store with cutoff 0.5 the query path
keeps exactly the 0.9- and 0.75-scored chunks, in that order, and the
surviving top citation indeed meets the cutoff. -/
theorem retrieval_cutoff_spec_witness :
    ((query_citations cexStore "q" 5 (mkRat 1 2)).map (fun c => c.score) =
      [mkRat 9 10, mkRat 3 4]) ∧
    mkRat 1 2 ≤ (toCitation ⟨cexMeta "t1", "x1", some (mkRat 9 10)⟩).score := by
  refine ⟨by decide, ?_⟩
  exact (retrieval_cutoff_spec cexStore "q" 5 (mkRat 1 2)).2.1 _ (by decide)

/-- Helper: the emitted texts are exactly the non-blank pages, in order. -/
theorem extractAux_map_fst (p : PaperLite) (total : Nat) (l : List String) :
    ∀ i, (extractAux p total i l).map Prod.fst =
      l.filter (fun t => !pyIsBlank t) := by
  induction l with
  | nil => intro i; rfl
  | cons text rest ih =>
    intro i
    by_cases h : pyIsBlank text
    · simp [extractAux, h, List.filter_cons, ih (i + 1)]
    · simp [extractAux, h, List.filter_cons, ih (i + 1)]

/-- Helper: every emitted pair is non-blank, carries the loop's total,
and its 1-based page number lies in `(i, i + remaining]`. -/
theorem extractAux_mem (p : PaperLite) (total : Nat) (l : List String) :
    ∀ i pr, pr ∈ extractAux p total i l →
      pyIsBlank pr.1 = false ∧ i + 1 ≤ pr.2.page ∧
      pr.2.page ≤ i + l.length ∧ pr.2.total_pages = total := by
  induction l with
  | nil => intro i pr h; exact absurd h (List.not_mem_nil _)
  | cons text rest ih =>
    intro i pr h
    by_cases hb : pyIsBlank text
    · have h2 := ih (i + 1) pr (by simpa [extractAux, hb] using h)
      have h3 := h2.2.2.1
      refine ⟨h2.1, by omega, ?_, h2.2.2.2⟩
      simp only [List.length_cons]
      omega
    · rw [extractAux, if_neg (by simp [hb])] at h
      rcases List.mem_cons.mp h with he | ht
      · subst he
        refine ⟨by simpa using hb, Nat.le_refl _, ?_, rfl⟩
        simp only [mkPageMeta, List.length_cons]
        omega
      · have h2 := ih (i + 1) pr ht
        have h3 := h2.2.2.1
        refine ⟨h2.1, by omega, ?_, h2.2.2.2⟩
        simp only [List.length_cons]
        omega

/-- Helper: emitted page numbers are strictly increasing. -/
theorem extractAux_pairwise (p : PaperLite) (total : Nat) (l : List String) :
    ∀ i, List.Pairwise (fun a b => a.2.page < b.2.page)
      (extractAux p total i l) := by
  induction l with
  | nil => intro i; simp [extractAux]
  | cons text rest ih =>
    intro i
    by_cases hb : pyIsBlank text
    · simpa [extractAux, hb] using ih (i + 1)
    · rw [extractAux, if_neg (by simp [hb])]
      refine List.pairwise_cons.mpr ⟨?_, ih (i + 1)⟩
      intro b hbmem
      have h2 := (extractAux_mem p total rest (i + 1) b hbmem).2.1
      simp only [mkPageMeta]
      omega

/-- C4: page extraction emits exactly one pair per non-whitespace-only
page, in page order (strictly increasing page numbers): the emitted
texts are exactly the non-blank pages in order, every emitted pair has
non-blank (hence non-empty) text, a 1-based page number within
`[1, total page count]`, and the correct total; whitespace-only pages
produce no pair, so the count of pairs equals the count of non-blank
pages. -/
theorem extract_pages_spec (p : PaperLite) (pdfPages : List String) :
    ((extract_pdf_by_pages p pdfPages).map Prod.fst =
      pdfPages.filter (fun t => !pyIsBlank t)) ∧
    (∀ pr ∈ extract_pdf_by_pages p pdfPages,
      pyIsBlank pr.1 = false ∧ pr.1 ≠ "" ∧ 1 ≤ pr.2.page ∧
      pr.2.page ≤ pdfPages.length ∧ pr.2.total_pages = pdfPages.length) ∧
    List.Pairwise (fun a b => a.2.page < b.2.page)
      (extract_pdf_by_pages p pdfPages) ∧
    (extract_pdf_by_pages p pdfPages).length =
      (pdfPages.filter (fun t => !pyIsBlank t)).length := by
  have hmap := extractAux_map_fst p pdfPages.length pdfPages 0
  refine ⟨hmap, ?_, extractAux_pairwise p pdfPages.length pdfPages 0, ?_⟩
  · intro pr hpr
    have h := extractAux_mem p pdfPages.length pdfPages 0 pr hpr
    have hne : pr.1 ≠ "" := by
      intro he
      have h1 := h.1
      rw [he] at h1
      exact absurd h1 (by decide)
    have h3 := h.2.2.1
    exact ⟨h.1, hne, h.2.1, by omega, h.2.2.2⟩
  · rw [show (extract_pdf_by_pages p pdfPages).length =
      ((extract_pdf_by_pages p pdfPages).map Prod.fst).length from
        (List.length_map _ _).symm]
    rw [show (extract_pdf_by_pages p pdfPages).map Prod.fst =
      pdfPages.filter (fun t => !pyIsBlank t) from hmap]

/-- Paper used in the C4 witness. -/
def witPaper : PaperLite := ⟨"T", "A", "2020", "KEYD1111", "d.pdf", "/lib/d.pdf"⟩

/-- C4 witness: in a four-page document whose pages 1 and 3 are blank,
the page "hello" is emitted with page number 2 of 4, within bounds. -/
theorem extract_pages_spec_witness :
    (("hello", mkPageMeta witPaper 1 4) ∈
      extract_pdf_by_pages witPaper ["", "hello", " \t", "world"]) ∧
    1 ≤ (mkPageMeta witPaper 1 4).page ∧ (mkPageMeta witPaper 1 4).page ≤ 4 := by
  refine ⟨by decide, ?_⟩
  have h := (extract_pages_spec witPaper ["", "hello", " \t", "world"]).2.1
    ("hello", mkPageMeta witPaper 1 4) (by decide)
  exact ⟨h.2.2.1, h.2.2.2.1⟩

/-- C7: the authors list is built from the creator rows rearranged into
ascending declared order index (a sorted permutation of the input rows)
by keeping each row's contributed name; a creator with both names
contributes "first last", one with exactly one name contributes that
name, and one with both names empty contributes nothing. -/
theorem load_creators_spec (rows : List CreatorRow) :
    (∃ srows, List.Perm rows srows ∧ List.Sorted creatorLE srows ∧
      load_creators rows = srows.filterMap creatorName) ∧
    (∀ r : CreatorRow,
      (r.firstName.getD "" ≠ "" → r.lastName.getD "" ≠ "" →
        creatorName r = some (r.firstName.getD "" ++ " " ++ r.lastName.getD "")) ∧
      (r.firstName.getD "" ≠ "" → r.lastName.getD "" = "" →
        creatorName r = some (r.firstName.getD "")) ∧
      (r.firstName.getD "" = "" → r.lastName.getD "" ≠ "" →
        creatorName r = some (r.lastName.getD "")) ∧
      (r.firstName.getD "" = "" → r.lastName.getD "" = "" →
        creatorName r = none)) := by
  constructor
  · exact ⟨List.insertionSort creatorLE rows,
      (List.perm_insertionSort creatorLE rows).symm,
      List.sorted_insertionSort creatorLE rows, rfl⟩
  · intro r
    refine ⟨?_, ?_, ?_, ?_⟩ <;> intro hf hl <;>
        simp [creatorName, hf, hl]
    intro he
    have hlen := congrArg String.length he
    simp [String.length_append] at hlen
    exact absurd hlen.1.2 (by decide)

/-- C7 witness: concrete rows — out-of-order indices are sorted, a
first-name-only creator contributes the first name, an empty creator is
dropped. -/
theorem load_creators_spec_witness :
    creatorName ⟨5, some "Ada", none⟩ = some "Ada" ∧
    creatorName ⟨6, some "", some ""⟩ = none ∧
    load_creators
      [⟨1, some "Ada", some "Lovelace"⟩, ⟨0, none, some "Turing"⟩,
       ⟨2, some "", some ""⟩] = ["Turing", "Ada Lovelace"] := by
  refine ⟨?_, ?_, by decide⟩
  · exact ((load_creators_spec []).2 ⟨5, some "Ada", none⟩).2.1
      (by decide) (by decide)
  · exact ((load_creators_spec []).2 ⟨6, some "", some ""⟩).2.2.2
      (by decide) (by decide)

/-- Helper: dict update/lookup interaction. -/
theorem lookup_insert (st : IndexState) (kin : String) (r : IndexedRec) :
    ∀ kq, lookupState (insertState st kin r) kq =
      if kin = kq then some r else lookupState st kq := by
  induction st with
  | nil =>
    intro kq
    by_cases h : kin = kq <;> simp [insertState, lookupState, h]
  | cons hd tl ih =>
    intro kq
    obtain ⟨k, r0⟩ := hd
    by_cases hk : k = kin
    · subst hk
      by_cases h : k = kq <;> simp [insertState, lookupState, h]
    · by_cases h : k = kq
      · subst h
        simp [insertState, lookupState, hk, Ne.symm hk]
      · simp [insertState, lookupState, hk, h, ih kq]

/-- A prior record for key `k` stores fingerprint `h`. -/
def keyHashHolds (st : IndexState) (k h : String) : Prop :=
  ∃ r, lookupState st k = some r ∧ r.hashF = some h

/-- Helper: a matching stored fingerprint makes the skip test fire. -/
theorem shouldSkip_of_keyHash {st : IndexState} {p : PaperF}
    (hkh : keyHashHolds st p.key p.hash) : shouldSkip false st p = true := by
  obtain ⟨r, hr, hh⟩ := hkh
  simp [shouldSkip, recHashMatches, hr, hh]

/-- Helper: a stored fingerprint survives an unforced run whose papers
are fingerprint-consistent for its key. -/
theorem runSteps_keyHash_preserve (ps : List PaperF) :
    ∀ (st : IndexState) (c : Nat) (k h : String),
      keyHashHolds st k h →
      (∀ p ∈ ps, p.key = k → p.hash = h) →
      keyHashHolds (runSteps false ps st c).1 k h := by
  induction ps with
  | nil => intro st c k h hkh _; exact hkh
  | cons p t ih =>
    intro st c k h hkh hcons
    have htail : ∀ q ∈ t, q.key = k → q.hash = h :=
      fun q hq => hcons q (List.mem_cons_of_mem _ hq)
    simp only [runSteps]
    by_cases hs : shouldSkip false st p = true
    · rw [if_pos hs]
      exact ih _ _ _ _ hkh htail
    · rw [if_neg hs]
      cases hex : p.extract with
      | none => exact ih _ _ _ _ hkh htail
      | some n =>
        refine ih _ _ _ _ ?_ htail
        by_cases hpk : p.key = k
        · refine ⟨⟨some p.hash, n⟩, ?_, ?_⟩
          · rw [lookup_insert, if_pos hpk]
          · rw [hcons p (List.mem_cons_self _ _) hpk]
        · obtain ⟨r, hr, hh⟩ := hkh
          refine ⟨r, ?_, hh⟩
          rw [lookup_insert, if_neg hpk]
          exact hr

/-- Helper: after an unforced run over fingerprint-consistent papers,
every paper whose extraction succeeds has a matching stored record. -/
theorem runSteps_establishes (ps : List PaperF) :
    ∀ (st : IndexState) (c : Nat),
      (∀ p ∈ ps, ∀ q ∈ ps, p.key = q.key → p.hash = q.hash) →
      ∀ p ∈ ps, p.extract.isSome = true →
        keyHashHolds (runSteps false ps st c).1 p.key p.hash := by
  induction ps with
  | nil => intro st c _ p hp; exact absurd hp (List.not_mem_nil _)
  | cons q t ih =>
    intro st c hcons p hp hex
    have htcons : ∀ a ∈ t, ∀ b ∈ t, a.key = b.key → a.hash = b.hash :=
      fun a ha b hb =>
        hcons a (List.mem_cons_of_mem _ ha) b (List.mem_cons_of_mem _ hb)
    rcases List.mem_cons.mp hp with rfl | hpt
    · simp only [runSteps]
      by_cases hs : shouldSkip false st p = true
      · rw [if_pos hs]
        have hkh : keyHashHolds st p.key p.hash := by
          simp only [shouldSkip, Bool.not_false, Bool.true_and] at hs
          cases hl : lookupState st p.key with
          | none => rw [hl] at hs; simp [recHashMatches] at hs
          | some r =>
            rw [hl] at hs
            simp only [recHashMatches, beq_iff_eq] at hs
            exact ⟨r, hl, hs⟩
        exact runSteps_keyHash_preserve t _ _ _ _ hkh
          (fun q0 hq0 hk =>
            hcons q0 (List.mem_cons_of_mem _ hq0) p hp hk)
      · rw [if_neg hs]
        cases hex2 : p.extract with
        | none => rw [hex2] at hex; exact absurd hex (by simp)
        | some n =>
          refine runSteps_keyHash_preserve t _ _ _ _ ?_
            (fun q0 hq0 hk =>
              hcons q0 (List.mem_cons_of_mem _ hq0) p hp hk)
          refine ⟨⟨some p.hash, n⟩, ?_, rfl⟩
          rw [lookup_insert, if_pos rfl]
    · simp only [runSteps]
      by_cases hs : shouldSkip false st q = true
      · rw [if_pos hs]
        exact ih _ _ htcons p hpt hex
      · rw [if_neg hs]
        cases hex2 : q.extract with
        | none => exact ih _ _ htcons p hpt hex
        | some n => exact ih _ _ htcons p hpt hex

/-- Helper: when every successful paper already has a matching record,
an unforced run changes nothing and counts nothing. -/
theorem runSteps_all_match (ps : List PaperF) :
    ∀ (st : IndexState) (c : Nat),
      (∀ p ∈ ps, p.extract.isSome = true → keyHashHolds st p.key p.hash) →
      runSteps false ps st c = (st, c) := by
  induction ps with
  | nil => intro st c _; rfl
  | cons p t ih =>
    intro st c hall
    have htail : ∀ q ∈ t, q.extract.isSome = true → keyHashHolds st q.key q.hash :=
      fun q hq => hall q (List.mem_cons_of_mem _ hq)
    simp only [runSteps]
    by_cases hex : p.extract.isSome = true
    · rw [if_pos (shouldSkip_of_keyHash (hall p (List.mem_cons_self _ _) hex))]
      exact ih st c htail
    · cases hex2 : p.extract with
      | some n => rw [hex2] at hex; simp at hex
      | none =>
        by_cases hs : shouldSkip false st p = true
        · rw [if_pos hs]; exact ih st c htail
        · rw [if_neg hs]; exact ih st c htail

/-- C2 counterexample: a storage directory holding two different PDFs
shares one identity key, so the cache record thrashes between their two
fingerprints and the second unforced run re-indexes again — the claim
that an unchanged filesystem always gives a second-run count of 0 is
false as stated. -/
theorem second_run_cex :
    (index_papers_run [⟨"KEYA1111", "h1", some 1⟩, ⟨"KEYA1111", "h2", some 1⟩]
      (index_papers_run
        [⟨"KEYA1111", "h1", some 1⟩, ⟨"KEYA1111", "h2", some 1⟩]
        [] false).1 false).2 ≠ 0 := by
  decide

/-- C2 (amended): if no two candidate PDFs share an identity key with
different fingerprints (in particular whenever each storage directory
holds at most one PDF), then running `index_papers` twice with
force=false over an unchanged filesystem yields a newly-indexed count of
0 on the second run, from any starting state. -/
theorem second_run_zero (papers : List PaperF) (prior : IndexState)
    (hcons : ∀ p ∈ papers, ∀ q ∈ papers, p.key = q.key → p.hash = q.hash) :
    (index_papers_run papers (index_papers_run papers prior false).1
      false).2 = 0 := by
  by_cases hnil : papers.isEmpty
  · simp [index_papers_run, hnil]
  · simp only [index_papers_run, if_neg hnil, Bool.false_eq_true,
      if_false]
    rw [runSteps_all_match papers _ 0
      (fun p hp hex => runSteps_establishes papers prior 0 hcons p hp hex)]

/-- C2 witness: one unchanged single-PDF document is skipped on the
second run. -/
theorem second_run_zero_witness :
    (index_papers_run [⟨"KEYE5555", "h", some 2⟩]
      (index_papers_run [⟨"KEYE5555", "h", some 2⟩] [] false).1
      false).2 = 0 :=
  second_run_zero _ _ (by decide)

/-- Helper: in a forced run nothing is ever skipped, and a key ends with
a record iff it had one entering the loop or some paper with that key
extracts successfully. -/
theorem runSteps_force_lookup (ps : List PaperF) :
    ∀ (st : IndexState) (c : Nat) (k : String),
      (lookupState (runSteps true ps st c).1 k).isSome = true ↔
        ((lookupState st k).isSome = true ∨
          ∃ p ∈ ps, p.key = k ∧ p.extract.isSome = true) := by
  induction ps with
  | nil => intro st c k; simp [runSteps]
  | cons p t ih =>
    intro st c k
    simp only [runSteps]
    rw [if_neg (by simp [shouldSkip])]
    cases hex : p.extract with
    | none =>
      rw [ih]
      constructor
      · rintro (h | ⟨q, hq, hk, he⟩)
        · exact .inl h
        · exact .inr ⟨q, List.mem_cons_of_mem _ hq, hk, he⟩
      · rintro (h | ⟨q, hq, hk, he⟩)
        · exact .inl h
        · rcases List.mem_cons.mp hq with rfl | hqt
          · rw [hex] at he; simp at he
          · exact .inr ⟨q, hqt, hk, he⟩
    | some n =>
      rw [ih]
      by_cases hpk : p.key = k
      · rw [lookup_insert, if_pos hpk]
        constructor
        · intro _
          exact .inr ⟨p, List.mem_cons_self _ _, hpk, by rw [hex]; rfl⟩
        · intro _; exact .inl rfl
      · rw [lookup_insert, if_neg hpk]
        constructor
        · rintro (h | ⟨q, hq, hk, he⟩)
          · exact .inl h
          · exact .inr ⟨q, List.mem_cons_of_mem _ hq, hk, he⟩
        · rintro (h | ⟨q, hq, hk, he⟩)
          · exact .inl h
          · rcases List.mem_cons.mp hq with rfl | hqt
            · exact absurd hk hpk
            · exact .inr ⟨q, hqt, hk, he⟩

/-- C10 counterexample: a forced run that finds no candidate PDFs
returns before touching the persisted state, so the prior records —
including those of removed files — survive even though no document's
extraction succeeded in that run; the claim that the entire prior state
is discarded on every forced run is false as stated. -/
theorem force_run_empty_cex :
    (index_papers_run [] [("KEYB2222", ⟨some "h", 3⟩)] true).1 =
      [("KEYB2222", ⟨some "h", 3⟩)] ∧
    (lookupState (index_papers_run [] [("KEYB2222", ⟨some "h", 3⟩)]
      true).1 "KEYB2222").isSome = true := by
  exact ⟨rfl, by decide⟩

/-- C10 (amended): whenever a forced run finds at least one candidate
PDF, the prior index state is discarded before processing and, after
the run, a record exists for an identity key iff some candidate with
that key succeeded extraction in that run — so a document that fails
extraction, or a record of a removed file, ends such a run with no
record, even if it had one before.  (When no candidate is found the run
returns early and the prior persisted state survives untouched.) -/
theorem force_run_spec (papers : List PaperF) (prior : IndexState)
    (k : String) (hne : papers ≠ []) :
    ((lookupState (index_papers_run papers prior true).1 k).isSome = true ↔
      ∃ p ∈ papers, p.key = k ∧ p.extract.isSome = true) := by
  have hnil : ¬ papers.isEmpty = true := by
    cases papers with
    | nil => exact absurd rfl hne
    | cons a l => simp [List.isEmpty]
  rw [index_papers_run, if_neg hnil]
  rw [if_pos rfl]
  rw [runSteps_force_lookup]
  simp [lookupState]

/-- C10 witness: a document that had a record but fails extraction in a
forced run ends the run with no record at all. -/
theorem force_run_spec_witness :
    ¬ ((lookupState (index_papers_run [⟨"CCCC3333", "h", none⟩]
        [("CCCC3333", ⟨some "h", 1⟩)] true).1 "CCCC3333").isSome = true) :=
  fun h =>
    absurd ((force_run_spec [⟨"CCCC3333", "h", none⟩]
      [("CCCC3333", ⟨some "h", 1⟩)] "CCCC3333" (by decide)).mp h)
      (by decide)

/-- Helper: a successful match always captures a year group of exactly
four digit characters. -/
theorem matchAfterAuthors_year (s : List Char) (y t : List Char)
    (h : matchAfterAuthors s = some (y, t)) :
    y.length = 4 ∧ y.all isPyDigit = true := by
  simp only [matchAfterAuthors] at h
  cases hs1 : s.dropWhile isPySpace with
  | nil => rw [hs1] at h; simp at h
  | cons d r1 =>
    rw [hs1] at h
    dsimp only [] at h
    by_cases hd : isDashChar d = true
    · rw [if_pos hd] at h
      by_cases hy : (((r1.dropWhile isPySpace).take 4).length == 4 &&
          ((r1.dropWhile isPySpace).take 4).all isPyDigit) = true
      · rw [if_pos hy] at h
        cases hs3 : ((r1.dropWhile isPySpace).drop 4).dropWhile isPySpace with
        | nil => rw [hs3] at h; simp at h
        | cons d2 r3 =>
          rw [hs3] at h
          dsimp only [] at h
          by_cases hd2 : isDashChar d2 = true
          · rw [if_pos hd2] at h
            rw [Option.map_eq_some'] at h
            obtain ⟨t0, _, he⟩ := h
            injection he with h1 h2
            subst h1
            rw [Bool.and_eq_true, beq_iff_eq] at hy
            exact ⟨hy.1, hy.2⟩
          · rw [if_neg hd2] at h; simp at h
      · rw [if_neg hy] at h; simp at h
    · rw [if_neg hd] at h; simp at h

/-- Helper: the author-length search over `[s, s+1, …]` returns the
first length whose tail matches — all shorter lengths fail. -/
theorem pyMatchAux_range' (name : List Char) :
    ∀ (n s : Nat) (r : List Char × List Char × List Char),
      pyMatchAux name (List.range' s n) = some r →
      ∃ k, s ≤ k ∧ k < s + n ∧ stepMatch name k = some r ∧
        ∀ j, s ≤ j → j < k → stepMatch name j = none := by
  intro n
  induction n with
  | zero => intro s r h; simp [List.range', pyMatchAux] at h
  | succ m ih =>
    intro s r h
    rw [List.range'_succ] at h
    simp only [pyMatchAux] at h
    cases hstep : stepMatch name s with
    | some r0 =>
      rw [hstep] at h
      injection h with hh
      subst hh
      exact ⟨s, Nat.le_refl s, by omega, hstep,
        fun j hj1 hj2 => absurd hj2 (by omega)⟩
    | none =>
      rw [hstep] at h
      obtain ⟨k, hk1, hk2, hk3, hk4⟩ := ih (s + 1) r h
      refine ⟨k, by omega, by omega, hk3, ?_⟩
      intro j hj1 hj2
      by_cases hjs : j = s
      · subst hjs; exact hstep
      · exact hk4 j (by omega) hj2

/-- Helper: what a successful candidate split means. -/
theorem stepMatch_some (name : List Char) (k : Nat)
    (a y t : List Char) (h : stepMatch name k = some (a, y, t)) :
    a = name.take k ∧ matchAfterAuthors (name.drop k) = some (y, t) := by
  unfold stepMatch at h
  by_cases hall : (name.take k).all (fun ch => ch != '\n') = true
  · rw [if_pos hall] at h
    rw [Option.map_eq_some'] at h
    obtain ⟨p, hp, he⟩ := h
    obtain ⟨p1, p2⟩ := p
    injection he with h1 h2
    injection h2 with h3 h4
    subst h1; subst h3; subst h4
    exact ⟨rfl, hp⟩
  · rw [if_neg hall] at h; exact absurd h (by simp)

/-- C5: when the stem matches the regex, `parse_filename` returns the
trimmed authors group, the year group (always exactly four digits), and
the trimmed title group, and the authors group is the shortest one
admitting a match (the non-greedy `(.+?)`: every shorter split fails);
when the stem does not match, it returns `("Unknown", "", stem)`
(totality of the embedding is the never-raises guarantee). -/
theorem parse_filename_spec (filename : String) :
    (∀ a y t, pyMatch (pdfStem filename).toList = some (a, y, t) →
      parse_filename filename =
        (String.mk (pyStrip a), String.mk y, String.mk (pyStrip t)) ∧
      y.length = 4 ∧ y.all isPyDigit = true ∧
      (∀ k, 1 ≤ k → k < a.length →
        stepMatch (pdfStem filename).toList k = none)) ∧
    (pyMatch (pdfStem filename).toList = none →
      parse_filename filename = ("Unknown", "", pdfStem filename)) := by
  constructor
  · intro a y t h
    have hrange : (List.range (pdfStem filename).toList.length).map
        (fun i => i + 1) = List.range' 1 (pdfStem filename).toList.length := by
      rw [List.range'_eq_map_range]
      exact List.map_congr_left (fun a _ => Nat.add_comm a 1)
    have h2 := h
    rw [pyMatch, hrange] at h2
    obtain ⟨k, hk1, hk2, hk3, hk4⟩ :=
      pyMatchAux_range' (pdfStem filename).toList _ _ _ h2
    obtain ⟨ha, hma⟩ := stepMatch_some _ _ _ _ _ hk3
    obtain ⟨hy4, hyd⟩ := matchAfterAuthors_year _ _ _ hma
    have halen : a.length = k := by
      rw [ha, List.length_take]
      omega
    refine ⟨?_, hy4, hyd, ?_⟩
    · simp only [parse_filename]
      rw [h]
    · intro j hj1 hj2
      rw [halen] at hj2
      exact hk4 j hj1 hj2
  · intro h
    simp only [parse_filename]
    rw [h]

/-- C5 witness: a conforming stem is parsed into its trimmed groups; a
non-conforming stem falls back to `("Unknown", "", stem)`. -/
theorem parse_filename_spec_witness :
    parse_filename "Smith - 2020 - Deep Learning.pdf" =
      ("Smith", "2020", "Deep Learning") ∧
    parse_filename "notes2020.pdf" = ("Unknown", "", "notes2020") := by
  constructor
  · exact (((parse_filename_spec "Smith - 2020 - Deep Learning.pdf").1
      "Smith".toList "2020".toList "Deep Learning".toList
      (by decide)).1).trans (by decide)
  · exact ((parse_filename_spec "notes2020.pdf").2 (by decide)).trans
      (by decide)
